import Mathlib

/-!
Shallow embedding of the cllmhub-cli provider core: the backend adapters
(`internal/backend/{ollama,llamacpp,vllm,custom}.go`), the hub connection
manager (`internal/hub/client.go`) and the request dispatcher / liveness
emitter (`internal/provider/provider.go`).

Network effects are made explicit: every HTTP exchange is a parameter
(status code, decoded body or frame list, transport-error option), and the
outbound WebSocket traffic is a `List OutFrame` trace.  Go `int`/`int64`
counters are embedded as `Int`; `float64` fields that are only carried,
never computed with, are embedded as `Rat`.
-/

namespace CLLMHub

/-- `backend.Request` (backend.go): the common inference request. -/
structure Request where
  prompt : String
  maxTokens : Int
  temperature : Rat
  topP : Rat
  deriving DecidableEq, Repr

/-- `backend.Response` (backend.go): the common inference result. -/
structure Response where
  text : String
  promptTokens : Int
  completionTokens : Int
  deriving DecidableEq, Repr

/-- `hub.Usage` (client.go): token usage counts. -/
structure Usage where
  promptTokens : Int
  completionTokens : Int
  totalTokens : Int
  deriving DecidableEq, Repr

/-- One outbound WebSocket frame, as built by the `HubClient.Send*`
functions in client.go. -/
inductive OutFrame where
  | response (requestId text providerId : String) (latencyMs : Int) (usage : Usage)
  | streamToken (requestId token : String) (index : Nat) (done : Bool)
      (text : Option String) (usage : Option Usage)
  | errorFrame (requestId message : String)
  | heartbeat (providerId model : String) (queueDepth : Int) (gpuUtil : Rat)
  deriving DecidableEq, Repr

namespace HubClient

/-- `HubClient.SendResponse` (client.go): the non-streaming response frame. -/
def SendResponse (requestId text providerId : String) (latencyMs : Int)
    (usage : Usage) : OutFrame :=
  .response requestId text providerId latencyMs usage

/-- `HubClient.SendStreamToken` (client.go): `text` is only attached when
`fullText` is non-empty, `usage` only when non-nil. -/
def SendStreamToken (requestId token : String) (index : Nat) (done : Bool)
    (fullText : String) (usage : Option Usage) : OutFrame :=
  .streamToken requestId token index done
    (if fullText = "" then none else some fullText) usage

/-- `HubClient.SendError` (client.go): the per-request error frame. -/
def SendError (requestId message : String) : OutFrame :=
  .errorFrame requestId message

/-- `HubClient.SendHeartbeat` (client.go): the liveness frame; provider id
and model come from the client, queue depth and GPU utilization from the
caller. -/
def SendHeartbeat (providerId model : String) (queueDepth : Int)
    (gpuUtil : Rat) : OutFrame :=
  .heartbeat providerId model queueDepth gpuUtil

end HubClient

/-- Fragment carried by a stream-token frame (`token` field); `""` for
frames of any other type. -/
def OutFrame.tokenFragment : OutFrame → String
  | .streamToken _ t _ _ _ _ => t
  | _ => ""

/-- Index carried by a stream-token frame; `0` for other frame types. -/
def OutFrame.frameIndex : OutFrame → Nat
  | .streamToken _ _ i _ _ _ => i
  | _ => 0

/-- The `done` flag of a stream-token frame. -/
def OutFrame.isDone : OutFrame → Bool
  | .streamToken _ _ _ d _ _ => d
  | _ => false

/-- Whether a frame is a stream-token frame. -/
def OutFrame.isStreamToken : OutFrame → Bool
  | .streamToken _ _ _ _ _ _ => true
  | _ => false

/-- The full text reported on a (terminal) stream-token frame; the hub
encodes an empty full text by omitting the field. -/
def OutFrame.reportedText : OutFrame → String
  | .streamToken _ _ _ _ tx _ => tx.getD ""
  | _ => ""

/-- The request id a frame is tagged with (`""` for heartbeats). -/
def OutFrame.requestIdOf : OutFrame → String
  | .response rid _ _ _ _ => rid
  | .streamToken rid _ _ _ _ _ => rid
  | .errorFrame rid _ => rid
  | .heartbeat _ _ _ _ => ""

/-- Whether a frame is a response frame. -/
def OutFrame.isResponse : OutFrame → Bool
  | .response _ _ _ _ _ => true
  | _ => false

/-- Whether a frame is an error frame. -/
def OutFrame.isErrorFrame : OutFrame → Bool
  | .errorFrame _ _ => true
  | _ => false

/-- Concatenation of the fragments of a frame list, in emission order. -/
def concatFragments : List OutFrame → String
  | [] => ""
  | f :: rest => f.tokenFragment ++ concatFragments rest

/-- Concatenation of a list of strings, in order. -/
def strConcat : List String → String
  | [] => ""
  | s :: rest => s ++ strConcat rest

/-- Threading a caller-supplied sink over a list of `(token, done)`
emissions, stopping at the sink's first error — the callback discipline
shared by every backend `Stream` implementation. -/
def threadSink (cb : σ → String → Bool → Except ε σ) : σ → List (String × Bool) → Except ε σ
  | s, [] => .ok s
  | s, (t, d) :: rest =>
    match cb s t d with
    | .error e => .error e
    | .ok s' => threadSink cb s' rest

namespace Ollama

/-- One decoded line of the Ollama `/api/generate` NDJSON body
(`ollamaResponse` in ollama.go). -/
structure Chunk where
  response : String
  done : Bool
  promptEvalCount : Int
  evalCount : Int
  deriving DecidableEq, Repr

/-- One scanned line of the streaming body: `malformed` is a line
`json.Unmarshal` rejects (skipped by the loop). -/
inductive Line where
  | malformed
  | chunk (c : Chunk)
  deriving DecidableEq, Repr

/-- The scanner loop of `Ollama.Stream` (ollama.go).  In the Go code
`fullText` is extended before the callback runs; since a callback error
discards the accumulator, extending it on the success branch is the same
function. -/
def streamLoop (cb : σ → String → Bool → Except ε σ) :
    List Line → σ → String → Int → Int → Except ε (σ × Response)
  | [], s, fullText, pt, ct => .ok (s, ⟨fullText, pt, ct⟩)
  | .malformed :: rest, s, fullText, pt, ct => streamLoop cb rest s fullText pt ct
  | .chunk c :: rest, s, fullText, pt, ct =>
    match cb s c.response c.done with
    | .error e => .error e
    | .ok s' =>
      streamLoop cb rest s' (fullText ++ c.response)
        (if c.done then c.promptEvalCount else pt)
        (if c.done then c.evalCount else ct)

/-- `Ollama.Stream` (ollama.go): transport error, then HTTP status check,
then the scanner loop, then the scanner-error check.  `mkErr` injects the
backend's own error strings into the caller's error type (`id` when the
error type is `String`, as in Go). -/
def Stream (mkErr : String → ε) (sendErr : Option String) (status : Nat)
    (body : String) (lines : List Line) (scanErr : Option String)
    (cb : σ → String → Bool → Except ε σ) (s0 : σ) : Except ε (σ × Response) :=
  match sendErr with
  | some m => .error (mkErr ("failed to send request: " ++ m))
  | none =>
    if status ≠ 200 then
      .error (mkErr ("ollama error (status " ++ toString status ++ "): " ++ body))
    else
      match streamLoop cb lines s0 "" 0 0 with
      | .error e => .error e
      | .ok (s, r) =>
        match scanErr with
        | some m => .error (mkErr ("error reading stream: " ++ m))
        | none => .ok (s, r)

/-- `Ollama.Complete` (ollama.go): non-streaming call; `decoded` is the
result of decoding the response body into `ollamaResponse`. -/
def Complete (sendErr : Option String) (status : Nat) (body : String)
    (decoded : Except String Chunk) : Except String Response :=
  match sendErr with
  | some m => .error ("failed to send request: " ++ m)
  | none =>
    if status ≠ 200 then
      .error ("ollama error (status " ++ toString status ++ "): " ++ body)
    else
      match decoded with
      | .error m => .error ("failed to decode response: " ++ m)
      | .ok r => .ok ⟨r.response, r.promptEvalCount, r.evalCount⟩

/-- The `(token, done)` pairs `Ollama.Stream`'s loop hands to the callback,
in arrival order. -/
def emitted : List Line → List (String × Bool)
  | [] => []
  | .malformed :: rest => emitted rest
  | .chunk c :: rest => (c.response, c.done) :: emitted rest

/-- Tag-suffix stripping in `Ollama.Health` (ollama.go): names like
`llama3:latest` match with or without the `:latest` tag.  Go compares
byte slices; model names are ASCII so character positions coincide. -/
def stripLatest (name : String) : String :=
  if name.length > 7 ∧ name.drop (name.length - 7) = ":latest" then
    name.take (name.length - 7)
  else name

/-- Model list formatting used in the mismatch message
(`formatModelList` in ollama.go): entries joined by a newline plus
two-space indent. -/
def formatModelListTail : List String → String
  | [] => ""
  | m :: rest => "\n  " ++ m ++ formatModelListTail rest

/-- `formatModelList` (ollama.go). -/
def formatModelList : List String → String
  | [] => ""
  | m :: rest => m ++ formatModelListTail rest

/-- The zero-available-models health error (ollama.go). -/
def msgNoModels (model : String) : String :=
  "model \"" ++ model ++ "\" not found in ollama — no models available, run:\n  ollama pull "
    ++ model

/-- The model-mismatch health error listing the available names (ollama.go). -/
def msgNotFound (model : String) (available : List String) : String :=
  "model \"" ++ model ++ "\" not found in ollama\n\nAvailable models:\n  "
    ++ formatModelList available ++ "\n\nTo pull it, run:\n  ollama pull " ++ model

/-- The model-membership loop of `Ollama.Health` (ollama.go): each name is
appended to `available`, then matched against the configured model with or
without the `:latest` tag; a match returns success immediately. -/
def healthLoop (model : String) : List String → List String → Except String Unit
  | [], available =>
    if available.length = 0 then .error (msgNoModels model)
    else .error (msgNotFound model available)
  | name :: rest, available =>
    if name = model ∨ stripLatest name = model then .ok ()
    else healthLoop model rest (available ++ [name])

/-- `Ollama.Health` (ollama.go): reachability probe against `/api/tags`,
then the model-membership check; `tags` is the decoded list of reported
model names. -/
def Health (model : String) (reachErr : Option String) (status : Nat)
    (tags : Except String (List String)) : Except String Unit :=
  match reachErr with
  | some m => .error ("ollama not reachable: " ++ m)
  | none =>
    if status ≠ 200 then .error ("ollama returned status " ++ toString status)
    else
      match tags with
      | .error m => .error ("failed to parse ollama models: " ++ m)
      | .ok names => healthLoop model names []

end Ollama

namespace LlamaCpp

/-- One decoded SSE payload of the llama.cpp `/completion` stream
(`llamaCppResponse` in llamacpp.go). -/
structure Chunk where
  content : String
  stop : Bool
  tokensEvaluated : Int
  tokensPredicted : Int
  deriving DecidableEq, Repr

/-- One scanned line: lines without the `data: ` prefix and lines whose
payload `json.Unmarshal` rejects are both skipped by the loop. -/
inductive Line where
  | noDataPrefix
  | malformed
  | chunk (c : Chunk)
  deriving DecidableEq, Repr

/-- The scanner loop of `LlamaCpp.Stream` (llamacpp.go). -/
def streamLoop (cb : σ → String → Bool → Except ε σ) :
    List Line → σ → String → Int → Int → Except ε (σ × Response)
  | [], s, fullText, pt, ct => .ok (s, ⟨fullText, pt, ct⟩)
  | .noDataPrefix :: rest, s, fullText, pt, ct => streamLoop cb rest s fullText pt ct
  | .malformed :: rest, s, fullText, pt, ct => streamLoop cb rest s fullText pt ct
  | .chunk c :: rest, s, fullText, pt, ct =>
    match cb s c.content c.stop with
    | .error e => .error e
    | .ok s' =>
      streamLoop cb rest s' (fullText ++ c.content)
        (if c.stop then c.tokensEvaluated else pt)
        (if c.stop then c.tokensPredicted else ct)

/-- `LlamaCpp.Stream` (llamacpp.go). -/
def Stream (mkErr : String → ε) (sendErr : Option String) (status : Nat)
    (body : String) (lines : List Line) (scanErr : Option String)
    (cb : σ → String → Bool → Except ε σ) (s0 : σ) : Except ε (σ × Response) :=
  match sendErr with
  | some m => .error (mkErr ("failed to send request: " ++ m))
  | none =>
    if status ≠ 200 then
      .error (mkErr ("llama.cpp error (status " ++ toString status ++ "): " ++ body))
    else
      match streamLoop cb lines s0 "" 0 0 with
      | .error e => .error e
      | .ok (s, r) =>
        match scanErr with
        | some m => .error (mkErr ("error reading stream: " ++ m))
        | none => .ok (s, r)

/-- `LlamaCpp.Complete` (llamacpp.go). -/
def Complete (sendErr : Option String) (status : Nat) (body : String)
    (decoded : Except String Chunk) : Except String Response :=
  match sendErr with
  | some m => .error ("failed to send request: " ++ m)
  | none =>
    if status ≠ 200 then
      .error ("llama.cpp error (status " ++ toString status ++ "): " ++ body)
    else
      match decoded with
      | .error m => .error ("failed to decode response: " ++ m)
      | .ok r => .ok ⟨r.content, r.tokensEvaluated, r.tokensPredicted⟩

/-- The `(token, done)` pairs `LlamaCpp.Stream`'s loop hands to the
callback, in arrival order. -/
def emitted : List Line → List (String × Bool)
  | [] => []
  | .noDataPrefix :: rest => emitted rest
  | .malformed :: rest => emitted rest
  | .chunk c :: rest => (c.content, c.stop) :: emitted rest

end LlamaCpp

namespace VLLM

/-- The first choice of a decoded vLLM SSE payload (`openAIResponse`
choices in the vLLM adapter). -/
structure Choice where
  text : String
  finishReason : String
  deriving DecidableEq, Repr

/-- Usage block of a decoded vLLM payload. -/
structure OpenAIUsage where
  promptTokens : Int
  completionTokens : Int
  deriving DecidableEq, Repr

/-- One scanned line of the vLLM SSE stream: lines without the `data: `
prefix are skipped; `data: [DONE]` is the sentinel; other payloads either
fail to decode (skipped) or decode to a choice list plus usage. -/
inductive Line where
  | noDataPrefix
  | doneSentinel
  | malformed
  | chunk (choices : List Choice) (usage : OpenAIUsage)
  deriving DecidableEq, Repr

/-- The scanner loop of `VLLM.Stream`: at the `[DONE]` sentinel the
callback fires once with `("", true)` and the loop breaks; a payload with
an empty choice list fires no callback. -/
def streamLoop (cb : σ → String → Bool → Except ε σ) :
    List Line → σ → String → Int → Int → Except ε (σ × Response)
  | [], s, fullText, pt, ct => .ok (s, ⟨fullText, pt, ct⟩)
  | .noDataPrefix :: rest, s, fullText, pt, ct => streamLoop cb rest s fullText pt ct
  | .malformed :: rest, s, fullText, pt, ct => streamLoop cb rest s fullText pt ct
  | .doneSentinel :: _, s, fullText, pt, ct =>
    match cb s "" true with
    | .error e => .error e
    | .ok s' => .ok (s', ⟨fullText, pt, ct⟩)
  | .chunk choices usage :: rest, s, fullText, pt, ct =>
    match choices with
    | [] => streamLoop cb rest s fullText pt ct
    | choice :: _ =>
      let done : Bool := choice.finishReason != ""
      match cb s choice.text done with
      | .error e => .error e
      | .ok s' =>
        streamLoop cb rest s' (fullText ++ choice.text)
          (if done then usage.promptTokens else pt)
          (if done then usage.completionTokens else ct)

/-- `VLLM.Stream` (the vLLM adapter). -/
def Stream (mkErr : String → ε) (sendErr : Option String) (status : Nat)
    (body : String) (lines : List Line) (scanErr : Option String)
    (cb : σ → String → Bool → Except ε σ) (s0 : σ) : Except ε (σ × Response) :=
  match sendErr with
  | some m => .error (mkErr ("failed to send request: " ++ m))
  | none =>
    if status ≠ 200 then
      .error (mkErr ("vllm error (status " ++ toString status ++ "): " ++ body))
    else
      match streamLoop cb lines s0 "" 0 0 with
      | .error e => .error e
      | .ok (s, r) =>
        match scanErr with
        | some m => .error (mkErr ("error reading stream: " ++ m))
        | none => .ok (s, r)

/-- `VLLM.Complete` (the vLLM adapter): the text is the first choice's
text, or empty when the choice list is empty. -/
def Complete (sendErr : Option String) (status : Nat) (body : String)
    (decoded : Except String (List Choice × OpenAIUsage)) : Except String Response :=
  match sendErr with
  | some m => .error ("failed to send request: " ++ m)
  | none =>
    if status ≠ 200 then
      .error ("vllm error (status " ++ toString status ++ "): " ++ body)
    else
      match decoded with
      | .error m => .error ("failed to decode response: " ++ m)
      | .ok (choices, usage) =>
        let text := match choices with
          | [] => ""
          | choice :: _ => choice.text
        .ok ⟨text, usage.promptTokens, usage.completionTokens⟩

/-- The `(token, done)` pairs `VLLM.Stream`'s loop hands to the callback:
everything up to and including the `[DONE]` sentinel, nothing after it. -/
def emitted : List Line → List (String × Bool)
  | [] => []
  | .noDataPrefix :: rest => emitted rest
  | .malformed :: rest => emitted rest
  | .doneSentinel :: _ => [("", true)]
  | .chunk choices _ :: rest =>
    match choices with
    | [] => emitted rest
    | choice :: _ => (choice.text, choice.finishReason != "") :: emitted rest

end VLLM

namespace Custom

/-- The decoded generic-backend response body (`customResponse` in
custom.go). -/
structure Resp where
  text : String
  promptTokens : Int
  completionTokens : Int
  deriving DecidableEq, Repr

/-- `Custom.Complete` (custom.go): single JSON POST; non-200 statuses are
backend errors with the body included. -/
def Complete (sendErr : Option String) (status : Nat) (body : String)
    (decoded : Except String Resp) : Except String Response :=
  match sendErr with
  | some m => .error ("failed to send request: " ++ m)
  | none =>
    if status ≠ 200 then
      .error ("custom backend error (status " ++ toString status ++ "): " ++ body)
    else
      match decoded with
      | .error m => .error ("failed to decode response: " ++ m)
      | .ok r => .ok ⟨r.text, r.promptTokens, r.completionTokens⟩

/-- `Custom.Stream` (custom.go): no native streaming — performs `Complete`
and emits the whole text as a single terminal token; a callback error is
returned as the call's failure with no result. -/
def Stream (mkErr : String → ε) (sendErr : Option String) (status : Nat)
    (body : String) (decoded : Except String Resp)
    (cb : σ → String → Bool → Except ε σ) (s0 : σ) : Except ε (σ × Response) :=
  match Complete sendErr status body decoded with
  | .error m => .error (mkErr m)
  | .ok resp =>
    match cb s0 resp.text true with
    | .error e => .error e
    | .ok s' => .ok (s', resp)

/-- The single `(token, done)` pair `Custom.Stream` hands to the callback
when `Complete` succeeds with `resp`. -/
def emitted (resp : Response) : List (String × Bool) := [(resp.text, true)]

/-- `Custom.Health` (custom.go): a transport failure is unhealthy; any
HTTP status below 500 is accepted (the endpoint may well answer 405 to a
GET); 500 and above is unhealthy. -/
def Health (reachErr : Option String) (status : Nat) : Except String Unit :=
  match reachErr with
  | some m => .error ("custom backend not reachable: " ++ m)
  | none =>
    if status ≥ 500 then .error ("custom backend returned status " ++ toString status)
    else .ok ()

end Custom

/-- Mutable counters of `provider.Provider` (provider.go), both guarded by
one mutex in the Go code. -/
structure ProviderState where
  requestCount : Int
  queueDepth : Int
  deriving DecidableEq, Repr

namespace Provider

/-- The streaming callback built in `handleStreamingRequest`
(provider.go): state is the trace of frames sent so far plus the locally
maintained `tokenIndex`, which starts at 0 and increments on every
invocation.  A failed hub write would surface as this callback's error and
abort the backend stream (yielding a non-completed request); the frames of
a completed request were all written successfully, which is what this sink
models. -/
def hubSink (requestId : String) :
    List OutFrame × Nat → String → Bool → Except String (List OutFrame × Nat) :=
  fun s token done =>
    .ok (s.1 ++ [HubClient.SendStreamToken requestId token s.2 done "" none], s.2 + 1)

/-- The frames the hub sink appends for emissions `toks`, indices starting
at `i`. -/
def tokenFrames (requestId : String) : Nat → List (String × Bool) → List OutFrame
  | _, [] => []
  | i, (t, d) :: rest =>
    HubClient.SendStreamToken requestId t i d "" none :: tokenFrames requestId (i + 1) rest

/-- `Provider.handleStreamingRequest` (provider.go), given the outcome of
the backend `Stream` call made with the hub sink: on failure one error
frame; on success the streamed frames followed by the final terminal token
reiterating full text and usage, then `recordRequest`. -/
def handleStreamingRequest (st : ProviderState) (requestId : String)
    (result : Except String ((List OutFrame × Nat) × Response)) :
    ProviderState × List OutFrame :=
  match result with
  | .error e => (st, [HubClient.SendError requestId ("streaming failed: " ++ e)])
  | .ok ((frames, tokenIndex), resp) =>
    ({ st with requestCount := st.requestCount + 1 },
     frames ++ [HubClient.SendStreamToken requestId "" tokenIndex true resp.text
       (some ⟨resp.promptTokens, resp.completionTokens,
              resp.promptTokens + resp.completionTokens⟩)])

/-- `Provider.handleNonStreamingRequest` (provider.go), given the outcome
of the backend `Complete` call: on failure one error frame tagged with the
request id; on success one response frame, then `recordRequest`. -/
def handleNonStreamingRequest (st : ProviderState) (requestId providerId : String)
    (latencyMs : Int) (result : Except String Response) :
    ProviderState × List OutFrame :=
  match result with
  | .error e => (st, [HubClient.SendError requestId ("inference failed: " ++ e)])
  | .ok resp =>
    ({ st with requestCount := st.requestCount + 1 },
     [HubClient.SendResponse requestId resp.text providerId latencyMs
       ⟨resp.promptTokens, resp.completionTokens,
        resp.promptTokens + resp.completionTokens⟩])

/-- `Provider.handleRequest` (provider.go): increments the queue depth on
receipt, runs the branch handler, and decrements on completion — the
decrement sits in a `defer`, so it runs on every exit path of the body. -/
def handleRequest (st : ProviderState)
    (body : ProviderState → ProviderState × List OutFrame) :
    ProviderState × List OutFrame :=
  let st1 := { st with queueDepth := st.queueDepth + 1 }
  let (st2, frames) := body st1
  ({ st2 with queueDepth := st2.queueDepth - 1 }, frames)

/-- Streaming dispatch against the Ollama backend: `handleStreamingRequest`
composed with `Ollama.Stream` run on the hub sink from `([], 0)`. -/
def handleStreamingOllama (st : ProviderState) (requestId : String)
    (sendErr : Option String) (status : Nat) (body : String)
    (lines : List Ollama.Line) (scanErr : Option String) :
    ProviderState × List OutFrame :=
  handleStreamingRequest st requestId
    (Ollama.Stream id sendErr status body lines scanErr (hubSink requestId) ([], 0))

/-- Streaming dispatch against the llama.cpp backend. -/
def handleStreamingLlamaCpp (st : ProviderState) (requestId : String)
    (sendErr : Option String) (status : Nat) (body : String)
    (lines : List LlamaCpp.Line) (scanErr : Option String) :
    ProviderState × List OutFrame :=
  handleStreamingRequest st requestId
    (LlamaCpp.Stream id sendErr status body lines scanErr (hubSink requestId) ([], 0))

/-- Streaming dispatch against the vLLM backend. -/
def handleStreamingVLLM (st : ProviderState) (requestId : String)
    (sendErr : Option String) (status : Nat) (body : String)
    (lines : List VLLM.Line) (scanErr : Option String) :
    ProviderState × List OutFrame :=
  handleStreamingRequest st requestId
    (VLLM.Stream id sendErr status body lines scanErr (hubSink requestId) ([], 0))

/-- Streaming dispatch against the custom backend (no native streaming). -/
def handleStreamingCustom (st : ProviderState) (requestId : String)
    (sendErr : Option String) (status : Nat) (body : String)
    (decoded : Except String Custom.Resp) :
    ProviderState × List OutFrame :=
  handleStreamingRequest st requestId
    (Custom.Stream id sendErr status body decoded (hubSink requestId) ([], 0))

/-- Non-streaming dispatch against the Ollama backend. -/
def handleNonStreamingOllama (st : ProviderState) (requestId providerId : String)
    (latencyMs : Int) (sendErr : Option String) (status : Nat) (body : String)
    (decoded : Except String Ollama.Chunk) : ProviderState × List OutFrame :=
  handleNonStreamingRequest st requestId providerId latencyMs
    (Ollama.Complete sendErr status body decoded)

end Provider

/-- The two lock-guarded queue-depth mutations a single dispatched request
performs: one increment on receipt, one deferred decrement on completion.
Under concurrency the mutations of different requests interleave, but each
runs atomically under the provider mutex, so an execution is a sequence of
these events. -/
inductive DepthEvent where
  | incr
  | decr
  deriving DecidableEq, Repr

/-- One lock-guarded read-modify-write of the queue depth. -/
def depthStep (d : Int) : DepthEvent → Int
  | .incr => d + 1
  | .decr => d - 1

/-- Queue depth after an interleaved sequence of depth events. -/
def depthAfter (d : Int) (tr : List DepthEvent) : Int :=
  tr.foldl depthStep d

/-- `hub.InferenceParams` (client.go). -/
structure InferenceParams where
  maxTokens : Int
  temperature : Rat
  topP : Rat
  stream : Bool
  deriving DecidableEq, Repr

/-- `hub.RequestMsg` (client.go): a forwarded inference request. -/
structure RequestMsg where
  requestId : String
  model : String
  prompt : String
  params : InferenceParams
  deriving DecidableEq, Repr

/-- One successfully read inbound frame, as the read loop classifies it:
`malformed` fails the envelope decode (skipped); `requestMalformed` has a
`request` type tag but fails the full decode (logged and skipped);
`request` is handed to the dispatcher; `ping` and any other type are
no-ops. -/
inductive InboundFrame where
  | malformed
  | requestMalformed
  | request (req : RequestMsg)
  | ping
  | other (t : String)
  deriving DecidableEq, Repr

/-- One iteration's input to the read loop: either the transport read
fails (cancellation surfaces the same way, via closing the socket) or a
frame arrives. -/
inductive ReadEvent where
  | failure (msg : String)
  | frame (f : InboundFrame)
  deriving DecidableEq, Repr

/-- Outcome of one read-loop iteration: continue (optionally dispatching a
request onto its own goroutine) or terminate the loop with an error. -/
inductive LoopStep where
  | continueLoop (dispatch : Option RequestMsg)
  | terminate (err : String)
  deriving DecidableEq, Repr

namespace HubClient

/-- One iteration of `HubClient.ReadLoop` (client.go).  A dispatched
request runs concurrently (`go onRequest(req)`): its outcome can never
terminate the loop. -/
def readLoopStep : ReadEvent → LoopStep
  | .failure m => .terminate ("ws read error: " ++ m)
  | .frame .malformed => .continueLoop none
  | .frame .requestMalformed => .continueLoop none
  | .frame (.request r) => .continueLoop (some r)
  | .frame .ping => .continueLoop none
  | .frame (.other _) => .continueLoop none

end HubClient

/-- `hub.ConnectConfig` (client.go). -/
structure ConnectConfig where
  hubURL : String
  providerID : String
  model : String
  backend : String
  description : String
  maxConcurrent : Int
  token : String
  deriving DecidableEq, Repr

/-- The fields of the `HubClient` value `Connect` builds (client.go),
without the socket handle. -/
structure HubClientData where
  hubURL : String
  providerID : String
  model : String
  backend : String
  description : String
  maxConcurrent : Int
  token : String
  deriving DecidableEq, Repr

/-- The register message map built in `Connect` (client.go). -/
structure RegisterMsg where
  msgType : String
  providerId : String
  model : String
  backend : String
  price : Int
  description : String
  maxConcurrent : Int
  token : String
  deriving DecidableEq, Repr

namespace Connect

/-- The `HubClient` value assembled from the connect config (client.go). -/
def clientOf (cfg : ConnectConfig) : HubClientData :=
  ⟨cfg.hubURL, cfg.providerID, cfg.model, cfg.backend, cfg.description,
   cfg.maxConcurrent, cfg.token⟩

/-- The registration frame sent during the handshake (client.go): the
`max_concurrent` field carries the config value unchanged, `price` is 0. -/
def registerMsg (cfg : ConnectConfig) : RegisterMsg :=
  ⟨"register", cfg.providerID, cfg.model, cfg.backend, 0, cfg.description,
   cfg.maxConcurrent, cfg.token⟩

/-- The handshake reply after envelope decoding: `malformed` when
`json.Unmarshal` rejects the raw message, otherwise its type tag plus the
embedded `message` field (empty when absent). -/
inductive RegisterReply where
  | malformed (msg : String)
  | reply (msgType message : String)
  deriving DecidableEq, Repr

/-- Outcome of the bounded-deadline read of the handshake reply: a read
deadline expiring surfaces as a `ReadMessage` failure, exactly like a
transport read error. -/
inductive ReadResult where
  | failure (msg : String)
  | received (r : RegisterReply)
  deriving DecidableEq, Repr

/-- Result of a handshake attempt: the session outcome and whether the
websocket was closed on the way out. -/
structure ConnectResult where
  outcome : Except String HubClientData
  wsClosed : Bool
  deriving Repr

/-- The handshake phase of `hub.Connect` (client.go), from the point the
socket is dialled: send the register frame, wait up to the read deadline
for a reply, then branch on the reply kind.  Every failure path closes the
socket before returning the error. -/
def handshake (cfg : ConnectConfig) (writeErr : Option String)
    (read : ReadResult) : ConnectResult :=
  let c := clientOf cfg
  match writeErr with
  | some m => ⟨.error ("failed to send register: " ++ m), true⟩
  | none =>
    match read with
    | .failure m => ⟨.error ("failed to read register response: " ++ m), true⟩
    | .received (.malformed m) =>
      ⟨.error ("failed to parse register response: " ++ m), true⟩
    | .received (.reply t msg) =>
      if t = "error" then ⟨.error ("registration failed: " ++ msg), true⟩
      else if t ≠ "registered" then ⟨.error ("unexpected response type: " ++ t), true⟩
      else ⟨.ok c, false⟩

end Connect

namespace Provider

/-- The provider-level fields of `provider.Config` (provider.go) that feed
the hub connection (`Backend` is collapsed to its type tag, the only field
`Connect` receives). -/
structure NewConfig where
  model : String
  description : String
  maxConcurrent : Int
  token : String
  backendType : String
  hubURL : String
  deriving DecidableEq, Repr

/-- The connect config `provider.New` (provider.go) assembles: the
configured concurrency limit is clamped below at 1 before it is handed to
`hub.Connect`. -/
def newConnectConfig (cfg : NewConfig) (providerID : String) : ConnectConfig :=
  { hubURL := cfg.hubURL
    providerID := providerID
    model := cfg.model
    backend := cfg.backendType
    description := cfg.description
    maxConcurrent := if cfg.maxConcurrent < 1 then 1 else cfg.maxConcurrent
    token := cfg.token }

/-- `time.NewTicker(30 * time.Second)` in `heartbeatLoop` (provider.go):
the fixed heartbeat interval, in seconds. -/
def heartbeatIntervalSeconds : Nat := 30

/-- One scheduling event observed by the heartbeat loop's select: a ticker
fire or the session's cancellation signal. -/
inductive HBEvent where
  | tick
  | cancel
  deriving DecidableEq, Repr

/-- The select loop of `Provider.heartbeatLoop` (provider.go): each ticker
fire before the first cancellation sends one heartbeat; the cancellation
signal exits the loop.  `depths k` is the queue depth `sendHeartbeat`
reads under the mutex at the `k`-th send; the GPU-utilization argument is
the literal 0. -/
def heartbeatTail (providerId model : String) (depths : Nat → Int) :
    List HBEvent → Nat → List OutFrame
  | [], _ => []
  | .cancel :: _, _ => []
  | .tick :: rest, k =>
    HubClient.SendHeartbeat providerId model (depths k) 0
      :: heartbeatTail providerId model depths rest (k + 1)

/-- `Provider.heartbeatLoop` (provider.go): one initial heartbeat before
the loop, then the ticker-driven sends until cancellation. -/
def heartbeatLoop (providerId model : String) (depths : Nat → Int)
    (evs : List HBEvent) : List OutFrame :=
  HubClient.SendHeartbeat providerId model (depths 0) 0
    :: heartbeatTail providerId model depths evs 1

/-- Number of ticker fires the loop serves before the first cancellation. -/
def ticksBeforeCancel : List HBEvent → Nat
  | [] => 0
  | .cancel :: _ => 0
  | .tick :: rest => ticksBeforeCancel rest + 1

end Provider

/-- The shape of one completed streaming dispatch trace: the backend
stream call succeeded with result `resp`, the trace is the streamed frames
followed by one terminal frame whose own fragment is empty, and both the
concatenation of the preceding fragments and the text reported on the
terminal frame equal `resp.text`. -/
def streamConcatSpec (result : Except String ((List OutFrame × Nat) × Response))
    (tr : List OutFrame) : Prop :=
  ∃ s resp pre term, result = .ok (s, resp) ∧ tr = pre ++ [term] ∧
    term.tokenFragment = "" ∧ term.isDone = true ∧
    concatFragments pre = resp.text ∧ OutFrame.reportedText term = resp.text

/-- Zero-based, contiguous, strictly increasing indexing of a trace of
stream-token frames: frame `i` carries index `i`. -/
def indexContiguous (tr : List OutFrame) : Prop :=
  tr.map OutFrame.frameIndex = List.range tr.length ∧
    tr.all OutFrame.isStreamToken = true

theorem concatFragments_append (l₁ l₂ : List OutFrame) :
    concatFragments (l₁ ++ l₂) = concatFragments l₁ ++ concatFragments l₂ := by
  induction l₁ with
  | nil => simp [concatFragments]
  | cons f rest ih => simp [concatFragments, ih, String.append_assoc]

theorem tokenFrames_length (rid : String) (i : Nat) (toks : List (String × Bool)) :
    (Provider.tokenFrames rid i toks).length = toks.length := by
  induction toks generalizing i with
  | nil => rfl
  | cons td rest ih => simpa [Provider.tokenFrames] using ih (i + 1)

theorem concatFragments_tokenFrames (rid : String) (i : Nat)
    (toks : List (String × Bool)) :
    concatFragments (Provider.tokenFrames rid i toks) = strConcat (toks.map Prod.fst) := by
  induction toks generalizing i with
  | nil => rfl
  | cons td rest ih =>
    simp [Provider.tokenFrames, concatFragments, strConcat, HubClient.SendStreamToken,
      OutFrame.tokenFragment, ih (i + 1)]

theorem frameIndex_tokenFrames (rid : String) (i : Nat) (toks : List (String × Bool)) :
    (Provider.tokenFrames rid i toks).map OutFrame.frameIndex = List.range' i toks.length := by
  induction toks generalizing i with
  | nil => rfl
  | cons td rest ih =>
    simp [Provider.tokenFrames, HubClient.SendStreamToken, OutFrame.frameIndex,
      ih (i + 1), List.range'_succ]

theorem isStreamToken_tokenFrames (rid : String) (i : Nat) (toks : List (String × Bool)) :
    (Provider.tokenFrames rid i toks).all OutFrame.isStreamToken = true := by
  induction toks generalizing i with
  | nil => rfl
  | cons td rest ih =>
    simp [Provider.tokenFrames, HubClient.SendStreamToken, OutFrame.isStreamToken,
      ih (i + 1)]

theorem reportedText_sendStreamToken (rid t : String) (i : Nat) (d : Bool)
    (ft : String) (u : Option Usage) :
    (HubClient.SendStreamToken rid t i d ft u).reportedText = ft := by
  by_cases h : ft = "" <;> simp [HubClient.SendStreamToken, OutFrame.reportedText, h]

theorem threadSink_hubSink (rid : String) (toks : List (String × Bool))
    (fs : List OutFrame) (i : Nat) :
    threadSink (Provider.hubSink rid) (fs, i) toks =
      .ok (fs ++ Provider.tokenFrames rid i toks, i + toks.length) := by
  induction toks generalizing fs i with
  | nil => simp [threadSink, Provider.tokenFrames]
  | cons td rest ih =>
    obtain ⟨t, d⟩ := td
    simp [threadSink, Provider.hubSink, Provider.tokenFrames, ih,
      Nat.add_assoc, Nat.add_comm 1]

theorem ollamaLoop_thread_ok {σ ε : Type} (cb : σ → String → Bool → Except ε σ)
    (lines : List Ollama.Line) (s s' : σ) (acc : String) (pt ct : Int)
    (h : threadSink cb s (Ollama.emitted lines) = .ok s') :
    ∃ pt' ct', Ollama.streamLoop cb lines s acc pt ct =
      .ok (s', ⟨acc ++ strConcat ((Ollama.emitted lines).map Prod.fst), pt', ct'⟩) := by
  induction lines generalizing s acc pt ct with
  | nil =>
    simp [Ollama.emitted, threadSink] at h
    subst h
    exact ⟨pt, ct, by simp [Ollama.streamLoop, Ollama.emitted, strConcat]⟩
  | cons l rest ih =>
    cases l with
    | malformed =>
      simp only [Ollama.emitted] at h
      obtain ⟨pt', ct', hl⟩ := ih s acc pt ct h
      exact ⟨pt', ct', by simpa [Ollama.streamLoop, Ollama.emitted] using hl⟩
    | chunk c =>
      simp only [Ollama.emitted, threadSink] at h
      cases hcb : cb s c.response c.done with
      | error e => rw [hcb] at h; exact absurd h (by simp)
      | ok s1 =>
        rw [hcb] at h
        obtain ⟨pt', ct', hl⟩ := ih s1 (acc ++ c.response)
          (if c.done then c.promptEvalCount else pt)
          (if c.done then c.evalCount else ct) h
        exact ⟨pt', ct', by
          simp [Ollama.streamLoop, hcb, hl, Ollama.emitted, strConcat,
            String.append_assoc]⟩

theorem ollamaLoop_thread_error {σ ε : Type} (cb : σ → String → Bool → Except ε σ)
    (lines : List Ollama.Line) (s : σ) (acc : String) (pt ct : Int) (e : ε)
    (h : threadSink cb s (Ollama.emitted lines) = .error e) :
    Ollama.streamLoop cb lines s acc pt ct = .error e := by
  induction lines generalizing s acc pt ct with
  | nil => simp [Ollama.emitted, threadSink] at h
  | cons l rest ih =>
    cases l with
    | malformed =>
      simp only [Ollama.emitted] at h
      simpa [Ollama.streamLoop] using ih s acc pt ct h
    | chunk c =>
      simp only [Ollama.emitted, threadSink] at h
      cases hcb : cb s c.response c.done with
      | error e' =>
        rw [hcb] at h
        simp at h
        subst h
        simp [Ollama.streamLoop, hcb]
      | ok s1 =>
        rw [hcb] at h
        simpa [Ollama.streamLoop, hcb] using ih s1 (acc ++ c.response) _ _ h

theorem ollama_trace_completed (st : ProviderState) (rid body : String)
    (lines : List Ollama.Line) :
    ∃ pt ct,
      Ollama.Stream id none 200 body lines none (Provider.hubSink rid) ([], 0) =
        .ok ((Provider.tokenFrames rid 0 (Ollama.emitted lines),
              (Ollama.emitted lines).length),
             ⟨strConcat ((Ollama.emitted lines).map Prod.fst), pt, ct⟩) ∧
      (Provider.handleStreamingOllama st rid none 200 body lines none).2 =
        Provider.tokenFrames rid 0 (Ollama.emitted lines) ++
          [HubClient.SendStreamToken rid "" (Ollama.emitted lines).length true
            (strConcat ((Ollama.emitted lines).map Prod.fst)) (some ⟨pt, ct, pt + ct⟩)] := by
  have hth := threadSink_hubSink rid (Ollama.emitted lines) [] 0
  simp only [List.nil_append, Nat.zero_add] at hth
  obtain ⟨pt, ct, hl⟩ :=
    ollamaLoop_thread_ok (Provider.hubSink rid) lines ([], 0) _ "" 0 0 hth
  rw [String.empty_append] at hl
  refine ⟨pt, ct, ?_, ?_⟩
  · simp [Ollama.Stream, hl]
  · simp [Provider.handleStreamingOllama, Provider.handleStreamingRequest,
      Ollama.Stream, hl]

theorem llamaLoop_thread_ok {σ ε : Type} (cb : σ → String → Bool → Except ε σ)
    (lines : List LlamaCpp.Line) (s s' : σ) (acc : String) (pt ct : Int)
    (h : threadSink cb s (LlamaCpp.emitted lines) = .ok s') :
    ∃ pt' ct', LlamaCpp.streamLoop cb lines s acc pt ct =
      .ok (s', ⟨acc ++ strConcat ((LlamaCpp.emitted lines).map Prod.fst), pt', ct'⟩) := by
  induction lines generalizing s acc pt ct with
  | nil =>
    simp [LlamaCpp.emitted, threadSink] at h
    subst h
    exact ⟨pt, ct, by simp [LlamaCpp.streamLoop, LlamaCpp.emitted, strConcat]⟩
  | cons l rest ih =>
    cases l with
    | noDataPrefix =>
      simp only [LlamaCpp.emitted] at h
      obtain ⟨pt', ct', hl⟩ := ih s acc pt ct h
      exact ⟨pt', ct', by simpa [LlamaCpp.streamLoop, LlamaCpp.emitted] using hl⟩
    | malformed =>
      simp only [LlamaCpp.emitted] at h
      obtain ⟨pt', ct', hl⟩ := ih s acc pt ct h
      exact ⟨pt', ct', by simpa [LlamaCpp.streamLoop, LlamaCpp.emitted] using hl⟩
    | chunk c =>
      simp only [LlamaCpp.emitted, threadSink] at h
      cases hcb : cb s c.content c.stop with
      | error e => rw [hcb] at h; exact absurd h (by simp)
      | ok s1 =>
        rw [hcb] at h
        obtain ⟨pt', ct', hl⟩ := ih s1 (acc ++ c.content)
          (if c.stop then c.tokensEvaluated else pt)
          (if c.stop then c.tokensPredicted else ct) h
        exact ⟨pt', ct', by
          simp [LlamaCpp.streamLoop, hcb, hl, LlamaCpp.emitted, strConcat,
            String.append_assoc]⟩

theorem llamaLoop_thread_error {σ ε : Type} (cb : σ → String → Bool → Except ε σ)
    (lines : List LlamaCpp.Line) (s : σ) (acc : String) (pt ct : Int) (e : ε)
    (h : threadSink cb s (LlamaCpp.emitted lines) = .error e) :
    LlamaCpp.streamLoop cb lines s acc pt ct = .error e := by
  induction lines generalizing s acc pt ct with
  | nil => simp [LlamaCpp.emitted, threadSink] at h
  | cons l rest ih =>
    cases l with
    | noDataPrefix =>
      simp only [LlamaCpp.emitted] at h
      simpa [LlamaCpp.streamLoop] using ih s acc pt ct h
    | malformed =>
      simp only [LlamaCpp.emitted] at h
      simpa [LlamaCpp.streamLoop] using ih s acc pt ct h
    | chunk c =>
      simp only [LlamaCpp.emitted, threadSink] at h
      cases hcb : cb s c.content c.stop with
      | error e' =>
        rw [hcb] at h
        simp at h
        subst h
        simp [LlamaCpp.streamLoop, hcb]
      | ok s1 =>
        rw [hcb] at h
        simpa [LlamaCpp.streamLoop, hcb] using ih s1 (acc ++ c.content) _ _ h

theorem llama_trace_completed (st : ProviderState) (rid body : String)
    (lines : List LlamaCpp.Line) :
    ∃ pt ct,
      LlamaCpp.Stream id none 200 body lines none (Provider.hubSink rid) ([], 0) =
        .ok ((Provider.tokenFrames rid 0 (LlamaCpp.emitted lines),
              (LlamaCpp.emitted lines).length),
             ⟨strConcat ((LlamaCpp.emitted lines).map Prod.fst), pt, ct⟩) ∧
      (Provider.handleStreamingLlamaCpp st rid none 200 body lines none).2 =
        Provider.tokenFrames rid 0 (LlamaCpp.emitted lines) ++
          [HubClient.SendStreamToken rid "" (LlamaCpp.emitted lines).length true
            (strConcat ((LlamaCpp.emitted lines).map Prod.fst)) (some ⟨pt, ct, pt + ct⟩)] := by
  have hth := threadSink_hubSink rid (LlamaCpp.emitted lines) [] 0
  simp only [List.nil_append, Nat.zero_add] at hth
  obtain ⟨pt, ct, hl⟩ :=
    llamaLoop_thread_ok (Provider.hubSink rid) lines ([], 0) _ "" 0 0 hth
  rw [String.empty_append] at hl
  refine ⟨pt, ct, ?_, ?_⟩
  · simp [LlamaCpp.Stream, hl]
  · simp [Provider.handleStreamingLlamaCpp, Provider.handleStreamingRequest,
      LlamaCpp.Stream, hl]

theorem vllmLoop_thread_ok {σ ε : Type} (cb : σ → String → Bool → Except ε σ)
    (lines : List VLLM.Line) (s s' : σ) (acc : String) (pt ct : Int)
    (h : threadSink cb s (VLLM.emitted lines) = .ok s') :
    ∃ pt' ct', VLLM.streamLoop cb lines s acc pt ct =
      .ok (s', ⟨acc ++ strConcat ((VLLM.emitted lines).map Prod.fst), pt', ct'⟩) := by
  induction lines generalizing s acc pt ct with
  | nil =>
    simp [VLLM.emitted, threadSink] at h
    subst h
    exact ⟨pt, ct, by simp [VLLM.streamLoop, VLLM.emitted, strConcat]⟩
  | cons l rest ih =>
    cases l with
    | noDataPrefix =>
      simp only [VLLM.emitted] at h
      obtain ⟨pt', ct', hl⟩ := ih s acc pt ct h
      exact ⟨pt', ct', by simpa [VLLM.streamLoop, VLLM.emitted] using hl⟩
    | malformed =>
      simp only [VLLM.emitted] at h
      obtain ⟨pt', ct', hl⟩ := ih s acc pt ct h
      exact ⟨pt', ct', by simpa [VLLM.streamLoop, VLLM.emitted] using hl⟩
    | doneSentinel =>
      simp only [VLLM.emitted, threadSink] at h
      cases hcb : cb s "" true with
      | error e => rw [hcb] at h; exact absurd h (by simp)
      | ok s1 =>
        rw [hcb] at h
        simp [threadSink] at h
        subst h
        exact ⟨pt, ct, by simp [VLLM.streamLoop, VLLM.emitted, hcb, strConcat]⟩
    | chunk choices usage =>
      cases choices with
      | nil =>
        simp only [VLLM.emitted] at h
        obtain ⟨pt', ct', hl⟩ := ih s acc pt ct h
        exact ⟨pt', ct', by simpa [VLLM.streamLoop, VLLM.emitted] using hl⟩
      | cons choice more =>
        simp only [VLLM.emitted, threadSink] at h
        cases hcb : cb s choice.text (choice.finishReason != "") with
        | error e => rw [hcb] at h; exact absurd h (by simp)
        | ok s1 =>
          rw [hcb] at h
          obtain ⟨pt', ct', hl⟩ := ih s1 (acc ++ choice.text)
            (if choice.finishReason = "" then pt else usage.promptTokens)
            (if choice.finishReason = "" then ct else usage.completionTokens) h
          exact ⟨pt', ct', by
            simp [VLLM.streamLoop, hcb, hl, VLLM.emitted, strConcat,
              String.append_assoc]⟩

theorem vllmLoop_thread_error {σ ε : Type} (cb : σ → String → Bool → Except ε σ)
    (lines : List VLLM.Line) (s : σ) (acc : String) (pt ct : Int) (e : ε)
    (h : threadSink cb s (VLLM.emitted lines) = .error e) :
    VLLM.streamLoop cb lines s acc pt ct = .error e := by
  induction lines generalizing s acc pt ct with
  | nil => simp [VLLM.emitted, threadSink] at h
  | cons l rest ih =>
    cases l with
    | noDataPrefix =>
      simp only [VLLM.emitted] at h
      simpa [VLLM.streamLoop] using ih s acc pt ct h
    | malformed =>
      simp only [VLLM.emitted] at h
      simpa [VLLM.streamLoop] using ih s acc pt ct h
    | doneSentinel =>
      simp only [VLLM.emitted, threadSink] at h
      cases hcb : cb s "" true with
      | error e' =>
        rw [hcb] at h
        simp at h
        subst h
        simp [VLLM.streamLoop, hcb]
      | ok s1 =>
        rw [hcb] at h
        simp [threadSink] at h
    | chunk choices usage =>
      cases choices with
      | nil =>
        simp only [VLLM.emitted] at h
        simpa [VLLM.streamLoop] using ih s acc pt ct h
      | cons choice more =>
        simp only [VLLM.emitted, threadSink] at h
        cases hcb : cb s choice.text (choice.finishReason != "") with
        | error e' =>
          rw [hcb] at h
          simp at h
          subst h
          simp [VLLM.streamLoop, hcb]
        | ok s1 =>
          rw [hcb] at h
          simpa [VLLM.streamLoop, hcb] using ih s1 (acc ++ choice.text) _ _ h

theorem vllm_trace_completed (st : ProviderState) (rid body : String)
    (lines : List VLLM.Line) :
    ∃ pt ct,
      VLLM.Stream id none 200 body lines none (Provider.hubSink rid) ([], 0) =
        .ok ((Provider.tokenFrames rid 0 (VLLM.emitted lines),
              (VLLM.emitted lines).length),
             ⟨strConcat ((VLLM.emitted lines).map Prod.fst), pt, ct⟩) ∧
      (Provider.handleStreamingVLLM st rid none 200 body lines none).2 =
        Provider.tokenFrames rid 0 (VLLM.emitted lines) ++
          [HubClient.SendStreamToken rid "" (VLLM.emitted lines).length true
            (strConcat ((VLLM.emitted lines).map Prod.fst)) (some ⟨pt, ct, pt + ct⟩)] := by
  have hth := threadSink_hubSink rid (VLLM.emitted lines) [] 0
  simp only [List.nil_append, Nat.zero_add] at hth
  obtain ⟨pt, ct, hl⟩ :=
    vllmLoop_thread_ok (Provider.hubSink rid) lines ([], 0) _ "" 0 0 hth
  rw [String.empty_append] at hl
  refine ⟨pt, ct, ?_, ?_⟩
  · simp [VLLM.Stream, hl]
  · simp [Provider.handleStreamingVLLM, Provider.handleStreamingRequest,
      VLLM.Stream, hl]

theorem custom_trace_completed (st : ProviderState) (rid body : String)
    (c : Custom.Resp) :
    Custom.Stream id none 200 body (.ok c) (Provider.hubSink rid) ([], 0) =
      .ok ((Provider.tokenFrames rid 0 [(c.text, true)], 1),
           ⟨c.text, c.promptTokens, c.completionTokens⟩) ∧
    (Provider.handleStreamingCustom st rid none 200 body (.ok c)).2 =
      Provider.tokenFrames rid 0 [(c.text, true)] ++
        [HubClient.SendStreamToken rid "" 1 true c.text
          (some ⟨c.promptTokens, c.completionTokens,
                 c.promptTokens + c.completionTokens⟩)] := by
  constructor
  · simp [Custom.Stream, Custom.Complete, Provider.hubSink, Provider.tokenFrames]
  · simp [Provider.handleStreamingCustom, Provider.handleStreamingRequest,
      Custom.Stream, Custom.Complete, Provider.hubSink, Provider.tokenFrames]

theorem tokenFragment_sendStreamToken (rid t : String) (i : Nat) (d : Bool)
    (ft : String) (u : Option Usage) :
    (HubClient.SendStreamToken rid t i d ft u).tokenFragment = t := by
  by_cases h : ft = "" <;> simp [HubClient.SendStreamToken, OutFrame.tokenFragment, h]

theorem frameIndex_sendStreamToken (rid t : String) (i : Nat) (d : Bool)
    (ft : String) (u : Option Usage) :
    (HubClient.SendStreamToken rid t i d ft u).frameIndex = i := by
  by_cases h : ft = "" <;> simp [HubClient.SendStreamToken, OutFrame.frameIndex, h]

theorem isDone_sendStreamToken (rid t : String) (i : Nat) (d : Bool)
    (ft : String) (u : Option Usage) :
    (HubClient.SendStreamToken rid t i d ft u).isDone = d := by
  by_cases h : ft = "" <;> simp [HubClient.SendStreamToken, OutFrame.isDone, h]

theorem isStreamToken_sendStreamToken (rid t : String) (i : Nat) (d : Bool)
    (ft : String) (u : Option Usage) :
    (HubClient.SendStreamToken rid t i d ft u).isStreamToken = true := by
  by_cases h : ft = "" <;> simp [HubClient.SendStreamToken, OutFrame.isStreamToken, h]

theorem streamConcatSpec_of_trace (rid : String) (toks : List (String × Bool))
    (resp : Response) (u : Option Usage)
    (result : Except String ((List OutFrame × Nat) × Response)) (tr : List OutFrame)
    (hres : result = .ok ((Provider.tokenFrames rid 0 toks, toks.length), resp))
    (htr : tr = Provider.tokenFrames rid 0 toks ++
      [HubClient.SendStreamToken rid "" toks.length true resp.text u])
    (htext : resp.text = strConcat (toks.map Prod.fst)) :
    streamConcatSpec result tr := by
  refine ⟨_, resp, Provider.tokenFrames rid 0 toks,
    HubClient.SendStreamToken rid "" toks.length true resp.text u,
    hres, htr, ?_, ?_, ?_, ?_⟩
  · exact tokenFragment_sendStreamToken ..
  · exact isDone_sendStreamToken ..
  · rw [concatFragments_tokenFrames, htext]
  · exact reportedText_sendStreamToken ..

theorem indexContiguous_of_trace (rid t : String) (toks : List (String × Bool))
    (d : Bool) (ft : String) (u : Option Usage) (tr : List OutFrame)
    (htr : tr = Provider.tokenFrames rid 0 toks ++
      [HubClient.SendStreamToken rid t toks.length d ft u]) :
    indexContiguous tr := by
  subst htr
  constructor
  · rw [List.map_append, frameIndex_tokenFrames]
    simp only [List.map_cons, List.map_nil, frameIndex_sendStreamToken]
    rw [List.length_append, tokenFrames_length]
    simp only [List.length_cons, List.length_nil]
    rw [List.range_succ, List.range_eq_range']
  · rw [List.all_append, isStreamToken_tokenFrames]
    simp [isStreamToken_sendStreamToken]

/-- C1: for every completed streaming request — hub writes delivered,
backend HTTP call returning 200 with no scanner error (for the custom
variant, a successfully decoded completion) — the dispatch trace is the
streamed token frames followed by one terminal token; the terminal token's
own fragment is empty, and the concatenation of the preceding
(non-terminal) fragments equals the `Response.text` the backend stream
returned, which is also the full text reported on the terminal token.
This holds for all four backend variants, including the custom variant
without native streaming, which emits the whole text as one token before
the dispatcher's terminal token. -/
theorem C1_stream_concat (st : ProviderState) (rid body : String)
    (olines : List Ollama.Line) (llines : List LlamaCpp.Line)
    (vlines : List VLLM.Line) (c : Custom.Resp) :
    streamConcatSpec
      (Ollama.Stream id none 200 body olines none (Provider.hubSink rid) ([], 0))
      (Provider.handleStreamingOllama st rid none 200 body olines none).2 ∧
    streamConcatSpec
      (LlamaCpp.Stream id none 200 body llines none (Provider.hubSink rid) ([], 0))
      (Provider.handleStreamingLlamaCpp st rid none 200 body llines none).2 ∧
    streamConcatSpec
      (VLLM.Stream id none 200 body vlines none (Provider.hubSink rid) ([], 0))
      (Provider.handleStreamingVLLM st rid none 200 body vlines none).2 ∧
    streamConcatSpec
      (Custom.Stream id none 200 body (.ok c) (Provider.hubSink rid) ([], 0))
      (Provider.handleStreamingCustom st rid none 200 body (.ok c)).2 := by
  refine ⟨?_, ?_, ?_, ?_⟩
  · obtain ⟨pt, ct, hres, htr⟩ := ollama_trace_completed st rid body olines
    exact streamConcatSpec_of_trace rid _ _ _ _ _ hres htr rfl
  · obtain ⟨pt, ct, hres, htr⟩ := llama_trace_completed st rid body llines
    exact streamConcatSpec_of_trace rid _ _ _ _ _ hres htr rfl
  · obtain ⟨pt, ct, hres, htr⟩ := vllm_trace_completed st rid body vlines
    exact streamConcatSpec_of_trace rid _ _ _ _ _ hres htr rfl
  · obtain ⟨hres, htr⟩ := custom_trace_completed st rid body c
    exact streamConcatSpec_of_trace rid [(c.text, true)]
      ⟨c.text, c.promptTokens, c.completionTokens⟩ _ _ _ hres htr
      (by simp [strConcat, String.append_empty])

/-- C3: for every completed streaming request, against any of the four
backend variants, the stream-token frames carry indices that are
zero-based, contiguous and strictly increasing — the trace's index
sequence is exactly `0, 1, …, n` — and the dispatcher's final terminal
token continues the sequence with the next index instead of resetting to
zero. -/
theorem C3_stream_indices (st : ProviderState) (rid body : String)
    (olines : List Ollama.Line) (llines : List LlamaCpp.Line)
    (vlines : List VLLM.Line) (c : Custom.Resp) :
    indexContiguous (Provider.handleStreamingOllama st rid none 200 body olines none).2 ∧
    indexContiguous (Provider.handleStreamingLlamaCpp st rid none 200 body llines none).2 ∧
    indexContiguous (Provider.handleStreamingVLLM st rid none 200 body vlines none).2 ∧
    indexContiguous (Provider.handleStreamingCustom st rid none 200 body (.ok c)).2 := by
  refine ⟨?_, ?_, ?_, ?_⟩
  · obtain ⟨pt, ct, _, htr⟩ := ollama_trace_completed st rid body olines
    exact indexContiguous_of_trace rid _ _ _ _ _ _ htr
  · obtain ⟨pt, ct, _, htr⟩ := llama_trace_completed st rid body llines
    exact indexContiguous_of_trace rid _ _ _ _ _ _ htr
  · obtain ⟨pt, ct, _, htr⟩ := vllm_trace_completed st rid body vlines
    exact indexContiguous_of_trace rid _ _ _ _ _ _ htr
  · obtain ⟨_, htr⟩ := custom_trace_completed st rid body c
    exact indexContiguous_of_trace rid _ [(c.text, true)] _ _ _ _ htr

theorem depthAfter_count (tr : List DepthEvent) (d : Int) :
    depthAfter d tr = d + tr.count .incr - tr.count .decr := by
  induction tr generalizing d with
  | nil => simp [depthAfter]
  | cons ev rest ih =>
    have h := ih (depthStep d ev)
    cases ev <;>
      simp only [depthAfter, List.foldl_cons, depthStep, List.count_cons] at h ⊢ <;>
      simp <;> omega

/-- C2: the dispatcher increments the in-flight queue depth on receipt and
the deferred decrement runs on every exit path, so after any single
request — streaming or not, succeeding or failing — the depth equals its
pre-request value; and any interleaving of the lock-guarded depth
mutations of N requests that all complete (a permutation of N increments
and N decrements) brings the depth from 0 back to 0. -/
theorem C2_queue_depth :
    (∀ (st : ProviderState) (rid pid : String) (lat : Int)
        (result : Except String Response),
        (Provider.handleRequest st
          (fun s => Provider.handleNonStreamingRequest s rid pid lat result)).1.queueDepth
          = st.queueDepth) ∧
    (∀ (st : ProviderState) (rid : String)
        (result : Except String ((List OutFrame × Nat) × Response)),
        (Provider.handleRequest st
          (fun s => Provider.handleStreamingRequest s rid result)).1.queueDepth
          = st.queueDepth) ∧
    (∀ (n : Nat) (tr : List DepthEvent),
        tr.Perm (List.replicate n .incr ++ List.replicate n .decr) →
        depthAfter 0 tr = 0) := by
  refine ⟨?_, ?_, ?_⟩
  · intro st rid pid lat result
    cases result <;>
      simp [Provider.handleRequest, Provider.handleNonStreamingRequest]
  · intro st rid result
    rcases result with e | ⟨⟨frames, i⟩, resp⟩ <;>
      simp [Provider.handleRequest, Provider.handleStreamingRequest]
  · intro n tr h
    rw [depthAfter_count]
    have hi := h.count_eq .incr
    have hd := h.count_eq .decr
    simp [List.count_append, List.count_replicate] at hi hd
    omega

/-- Witness for C2: an interleaved trace of two concurrent requests
(incr, decr, incr, decr) returns the depth to 0. -/
theorem C2_queue_depth_witness :
    depthAfter 0 [DepthEvent.incr, DepthEvent.decr, DepthEvent.incr, DepthEvent.decr] = 0 :=
  C2_queue_depth.2.2 2 [.incr, .decr, .incr, .decr] (by decide)

/-- C4: for every handshake attempt (from the dialled socket on): a
"registered" reply completes the handshake and yields the client, leaving
the socket open; an "error" reply fails with the embedded message; any
other reply kind fails; a read failure — which is also how the bounded
read deadline surfaces — fails; and every failing outcome closes the
socket and returns no client (the socket is open exactly when a client is
returned). -/
theorem C4_handshake (cfg : ConnectConfig) (w : Option String) (r : Connect.ReadResult) :
    ((Connect.handshake cfg w r).wsClosed = false ↔
      (Connect.handshake cfg w r).outcome = .ok (Connect.clientOf cfg)) ∧
    (∀ m, Connect.handshake cfg none (.received (.reply "registered" m)) =
      ⟨.ok (Connect.clientOf cfg), false⟩) ∧
    (∀ m, Connect.handshake cfg none (.received (.reply "error" m)) =
      ⟨.error ("registration failed: " ++ m), true⟩) ∧
    (∀ t m, t ≠ "registered" → t ≠ "error" →
      ∃ e, Connect.handshake cfg none (.received (.reply t m)) = ⟨.error e, true⟩) ∧
    (∀ m, ∃ e, Connect.handshake cfg w (.failure m) = ⟨.error e, true⟩) ∧
    (∀ e, (Connect.handshake cfg w r).outcome = .error e →
      (Connect.handshake cfg w r).wsClosed = true) := by
  refine ⟨?_, ?_, ?_, ?_, ?_, ?_⟩
  · rcases w with _ | m
    · rcases r with m | rr
      · simp [Connect.handshake]
      · rcases rr with m | ⟨t, msg⟩
        · simp [Connect.handshake]
        · by_cases he : t = "error"
          · simp [Connect.handshake, he]
          · by_cases hr : t = "registered"
            · simp [Connect.handshake, he, hr]
            · simp [Connect.handshake, he, hr]
    · simp [Connect.handshake]
  · intro m
    simp [Connect.handshake]
  · intro m
    simp [Connect.handshake]
  · intro t m hr he
    exact ⟨"unexpected response type: " ++ t, by simp [Connect.handshake, he, hr]⟩
  · intro m
    rcases w with _ | wm
    · exact ⟨"failed to read register response: " ++ m, rfl⟩
    · exact ⟨"failed to send register: " ++ wm, rfl⟩
  · intro e h
    rcases w with _ | m
    · rcases r with m | rr
      · rfl
      · rcases rr with m | ⟨t, msg⟩
        · rfl
        · by_cases he : t = "error"
          · simp [Connect.handshake, he]
          · by_cases hr : t = "registered"
            · simp [Connect.handshake, he, hr] at h
            · simp [Connect.handshake, he, hr]
    · rfl

/-- Witness for C4: concrete handshake attempts — an "error" reply
surfaces the embedded message with the socket closed, and an unexpected
reply kind fails with the socket closed. -/
theorem C4_handshake_witness :
    Connect.handshake ⟨"http://hub", "prov1", "llama3", "ollama", "", 4, "tok"⟩ none
        (.received (.reply "error" "bad token")) =
      ⟨.error ("registration failed: " ++ "bad token"), true⟩ ∧
    (∃ e, Connect.handshake ⟨"http://hub", "prov1", "llama3", "ollama", "", 4, "tok"⟩ none
        (.received (.reply "pong" "")) = ⟨.error e, true⟩) :=
  ⟨(C4_handshake ⟨"http://hub", "prov1", "llama3", "ollama", "", 4, "tok"⟩ none
      (.received (.reply "error" "bad token"))).2.2.1 "bad token",
   (C4_handshake ⟨"http://hub", "prov1", "llama3", "ollama", "", 4, "tok"⟩ none
      (.received (.reply "pong" ""))).2.2.2.1 "pong" "" (by decide) (by decide)⟩

/-- C5: a non-streaming request whose Ollama `Complete` call returns a
non-success HTTP status produces exactly one error frame, tagged with the
originating request id, and no response frame; and the read loop always
continues past a request frame (the handler runs on its own goroutine), so
a per-request backend failure never tears down the connection. -/
theorem C5_nonstream_error (st : ProviderState) (rid pid : String) (lat : Int)
    (body : String) (decoded : Except String Ollama.Chunk) (status : Nat)
    (h : status ≠ 200) :
    (∃ msg, (Provider.handleNonStreamingOllama st rid pid lat none status body decoded).2 =
      [HubClient.SendError rid msg]) ∧
    ((Provider.handleNonStreamingOllama st rid pid lat none status body decoded).2.countP
      (fun f => f.isErrorFrame && f.requestIdOf == rid)) = 1 ∧
    ((Provider.handleNonStreamingOllama st rid pid lat none status body decoded).2.countP
      (fun f => f.isResponse)) = 0 ∧
    (∀ r : RequestMsg, HubClient.readLoopStep (.frame (.request r)) =
      .continueLoop (some r)) := by
  have hc : Ollama.Complete none status body decoded =
      .error ("ollama error (status " ++ toString status ++ "): " ++ body) := by
    simp [Ollama.Complete, h]
  refine ⟨⟨"inference failed: " ++ ("ollama error (status " ++ toString status ++ "): " ++ body), ?_⟩,
    ?_, ?_, fun r => rfl⟩ <;>
    simp [Provider.handleNonStreamingOllama, Provider.handleNonStreamingRequest, hc,
      HubClient.SendError, List.countP_cons, OutFrame.isErrorFrame, OutFrame.requestIdOf,
      OutFrame.isResponse]

/-- Witness for C5: a backend answering HTTP 500 yields exactly one error
frame tagged with the request id and no response frame. -/
theorem C5_nonstream_error_witness :
    (∃ msg, (Provider.handleNonStreamingOllama ⟨0, 1⟩ "req-1" "prov-1" 5 none 500 "boom"
      (.ok ⟨"", false, 0, 0⟩)).2 = [HubClient.SendError "req-1" msg]) ∧
    ((Provider.handleNonStreamingOllama ⟨0, 1⟩ "req-1" "prov-1" 5 none 500 "boom"
      (.ok ⟨"", false, 0, 0⟩)).2.countP
      (fun f => f.isErrorFrame && f.requestIdOf == "req-1")) = 1 ∧
    ((Provider.handleNonStreamingOllama ⟨0, 1⟩ "req-1" "prov-1" 5 none 500 "boom"
      (.ok ⟨"", false, 0, 0⟩)).2.countP (fun f => f.isResponse)) = 0 ∧
    (∀ r : RequestMsg, HubClient.readLoopStep (.frame (.request r)) =
      .continueLoop (some r)) :=
  C5_nonstream_error ⟨0, 1⟩ "req-1" "prov-1" 5 "boom" (.ok ⟨"", false, 0, 0⟩) 500 (by decide)

/-- C6: for every backend variant, if the caller-supplied sink errors on
any invocation then the streaming call aborts with exactly that error and
returns no (partial) result — stated against the sink-threading semantics
of each stream loop. -/
theorem C6_sink_error :
    (∀ {σ ε : Type} (mkErr : String → ε) (cb : σ → String → Bool → Except ε σ) (s0 : σ)
      (body : String) (lines : List Ollama.Line) (scanErr : Option String) (e : ε),
      threadSink cb s0 (Ollama.emitted lines) = .error e →
      Ollama.Stream mkErr none 200 body lines scanErr cb s0 = .error e) ∧
    (∀ {σ ε : Type} (mkErr : String → ε) (cb : σ → String → Bool → Except ε σ) (s0 : σ)
      (body : String) (lines : List LlamaCpp.Line) (scanErr : Option String) (e : ε),
      threadSink cb s0 (LlamaCpp.emitted lines) = .error e →
      LlamaCpp.Stream mkErr none 200 body lines scanErr cb s0 = .error e) ∧
    (∀ {σ ε : Type} (mkErr : String → ε) (cb : σ → String → Bool → Except ε σ) (s0 : σ)
      (body : String) (lines : List VLLM.Line) (scanErr : Option String) (e : ε),
      threadSink cb s0 (VLLM.emitted lines) = .error e →
      VLLM.Stream mkErr none 200 body lines scanErr cb s0 = .error e) ∧
    (∀ {σ ε : Type} (mkErr : String → ε) (cb : σ → String → Bool → Except ε σ) (s0 : σ)
      (body : String) (c : Custom.Resp) (e : ε),
      threadSink cb s0 (Custom.emitted ⟨c.text, c.promptTokens, c.completionTokens⟩) = .error e →
      Custom.Stream mkErr none 200 body (.ok c) cb s0 = .error e) := by
  refine ⟨?_, ?_, ?_, ?_⟩
  · intro σ ε mkErr cb s0 body lines scanErr e h
    have hl := ollamaLoop_thread_error cb lines s0 "" 0 0 e h
    simp [Ollama.Stream, hl]
  · intro σ ε mkErr cb s0 body lines scanErr e h
    have hl := llamaLoop_thread_error cb lines s0 "" 0 0 e h
    simp [LlamaCpp.Stream, hl]
  · intro σ ε mkErr cb s0 body lines scanErr e h
    have hl := vllmLoop_thread_error cb lines s0 "" 0 0 e h
    simp [VLLM.Stream, hl]
  · intro σ ε mkErr cb s0 body c e h
    simp only [Custom.emitted, threadSink] at h
    cases hcb : cb s0 c.text true with
    | error e' =>
      rw [hcb] at h
      simp at h
      subst h
      simp [Custom.Stream, Custom.Complete, hcb]
    | ok s1 => rw [hcb] at h; simp at h

/-- Witness for C6: a sink that fails on its first invocation aborts both
the Ollama stream and the custom-backend fallback stream with that same
error. -/
theorem C6_sink_error_witness :
    Ollama.Stream id none 200 "" [Ollama.Line.chunk ⟨"hi", false, 0, 0⟩] none
      (fun (_ : Unit) (_ : String) (_ : Bool) => (.error "sink failed" : Except String Unit)) ()
      = .error "sink failed" ∧
    Custom.Stream id none 200 "" (.ok ⟨"hello", 1, 2⟩)
      (fun (_ : Unit) (_ : String) (_ : Bool) => (.error "sink failed" : Except String Unit)) ()
      = .error "sink failed" :=
  ⟨C6_sink_error.1 id
      (fun (_ : Unit) (_ : String) (_ : Bool) => (.error "sink failed" : Except String Unit))
      () "" [Ollama.Line.chunk ⟨"hi", false, 0, 0⟩] none "sink failed" rfl,
   C6_sink_error.2.2.2 id
      (fun (_ : Unit) (_ : String) (_ : Bool) => (.error "sink failed" : Except String Unit))
      () "" ⟨"hello", 1, 2⟩ "sink failed" rfl⟩

/-- C7: Ollama health, model-membership branch.  With the server
reporting `["llama3:latest", "mistral"]`: configured model "llama3"
passes (the `:latest` tag suffix is ignored for comparison); configured
model "phi3" fails with the mismatch message, which lists both available
names.  With zero reported models, "phi3" fails with the distinct
no-models message, which instructs running `ollama pull`. -/
theorem C7_ollama_health_model :
    Ollama.Health "llama3" none 200 (.ok ["llama3:latest", "mistral"]) = .ok () ∧
    Ollama.Health "phi3" none 200 (.ok ["llama3:latest", "mistral"]) =
      .error (Ollama.msgNotFound "phi3" ["llama3:latest", "mistral"]) ∧
    "llama3:latest".data <:+: (Ollama.msgNotFound "phi3" ["llama3:latest", "mistral"]).data ∧
    "mistral".data <:+: (Ollama.msgNotFound "phi3" ["llama3:latest", "mistral"]).data ∧
    Ollama.Health "phi3" none 200 (.ok []) = .error (Ollama.msgNoModels "phi3") ∧
    Ollama.msgNoModels "phi3" ≠ Ollama.msgNotFound "phi3" ["llama3:latest", "mistral"] ∧
    "ollama pull phi3".data <:+: (Ollama.msgNoModels "phi3").data := by
  set_option maxRecDepth 8000 in
  refine ⟨rfl, rfl, by decide, by decide, rfl, by decide, by decide⟩

/-- C8: the liveness emitter sends one heartbeat immediately, then one per
ticker fire until the first cancellation event, and nothing after it; the
k-th heartbeat frame carries the provider id, the model name, the queue
depth read at that send, and the always-zero utilization metric; the
ticker interval is the fixed thirty seconds. -/
theorem C8_heartbeat (pid model : String) (depths : Nat → Int)
    (evs : List Provider.HBEvent) :
    Provider.heartbeatLoop pid model depths evs =
      (List.range (Provider.ticksBeforeCancel evs + 1)).map
        (fun k => HubClient.SendHeartbeat pid model (depths k) 0) ∧
    Provider.heartbeatIntervalSeconds = 30 := by
  refine ⟨?_, rfl⟩
  have htail : ∀ (hevs : List Provider.HBEvent) (k : Nat),
      Provider.heartbeatTail pid model depths hevs k =
        (List.range' k (Provider.ticksBeforeCancel hevs)).map
          (fun j => HubClient.SendHeartbeat pid model (depths j) 0) := by
    intro hevs
    induction hevs with
    | nil => intro k; simp [Provider.heartbeatTail, Provider.ticksBeforeCancel]
    | cons ev rest ih =>
      intro k
      cases ev with
      | tick =>
        simp [Provider.heartbeatTail, Provider.ticksBeforeCancel, ih, List.range'_succ]
      | cancel => simp [Provider.heartbeatTail, Provider.ticksBeforeCancel]
  rw [Provider.heartbeatLoop, htail, List.range_eq_range', List.range'_succ]
  simp

/-- C9: at provider construction any configured concurrency limit below 1
is silently clamped to 1, so the `max_concurrent` field of the
registration message sent to the gateway is always at least 1 and
otherwise carries the configured value. -/
theorem C9_max_concurrent (cfg : Provider.NewConfig) (pid : String) :
    1 ≤ (Connect.registerMsg (Provider.newConnectConfig cfg pid)).maxConcurrent ∧
    (Connect.registerMsg (Provider.newConnectConfig cfg pid)).maxConcurrent =
      (if cfg.maxConcurrent < 1 then 1 else cfg.maxConcurrent) := by
  constructor
  · simp only [Connect.registerMsg, Provider.newConnectConfig]
    split
    · omega
    · omega
  · rfl

/-- C10: the generic (custom) backend's health check accepts every HTTP
status strictly below 500 — including 4xx client errors such as 404 and
405 — and fails only on a transport error or a status of 500 or above. -/
theorem C10_custom_health (status : Nat) (m : String) :
    (Custom.Health none status = .ok () ↔ status < 500) ∧
    (∃ e, Custom.Health (some m) status = .error e) ∧
    Custom.Health none 404 = .ok () ∧
    Custom.Health none 405 = .ok () := by
  refine ⟨?_, ⟨"custom backend not reachable: " ++ m, rfl⟩, rfl, rfl⟩
  by_cases h : status ≥ 500
  · simp [Custom.Health, h]
  · simp [Custom.Health, h]
    omega

end CLLMHub
